import Mathlib

/-!
Shallow embedding of the tour engine of react-native-tour-pilot
(src/TourProvider.tsx, src/TourStep.tsx, src/eventEmitter.ts, src/types.ts,
src/useTourControl.ts).

Numbers that the source manipulates as JS numbers are modelled as ℚ where
they are screen coordinates and as Int where they are step orders and
indices.  JS objects used as string-keyed, insertion-ordered maps
(the `StepsState` record of TourProvider.tsx) are modelled as association
lists where an existing key keeps its position and a new key is appended,
which is exactly the enumeration order of non-integer-like string keys that
the spread `{ ...obj, [k]: v }` produces.  The fields of a `Step` that are
UI handles (`wrapperRef`, the `measure` capability) play no part in the
registry, navigation or placement arithmetic and are omitted from the
model.
-/

namespace TourPilot

/-- MaskShape from src/types.ts: 'circle' | 'rectangle' | 'rounded-rectangle'. -/
inductive MaskShape
  | circle
  | rectangle
  | roundedRectangle
deriving DecidableEq

/-- Step from src/types.ts (data fields only; `wrapperRef` and `measure` are
UI handles that the registry and navigation never inspect).  TourProvider.tsx
additionally reads `step.highlightPadding` in moveModalToStep, so the model
carries it as an optional field. -/
structure Step where
  name : String
  order : Int
  text : String
  tourKey : String
  visible : Bool
  maskShape : Option MaskShape
  borderRadius : Option ℚ
  highlightPadding : Option ℚ
deriving DecidableEq

/-- LayoutRect from src/types.ts. -/
structure LayoutRect where
  x : ℚ
  y : ℚ
  width : ℚ
  height : ℚ
deriving DecidableEq

/-- Association-list lookup, modelling JS property access `obj[k]`. -/
def alookup {β : Type} (k : String) : List (String × β) → Option β
  | [] => none
  | (k₂, v) :: rest => if k₂ = k then some v else alookup k rest

/-- Insert-or-replace, modelling `{ ...obj, [k]: v }`: an existing key keeps
its position and only its value changes, a new key is appended. -/
def upsert {β : Type} (k : String) (v : β) : List (String × β) → List (String × β)
  | [] => [(k, v)]
  | (k₂, v₂) :: rest => if k₂ = k then (k, v) :: rest else (k₂, v₂) :: upsert k v rest

/-- The per-tour step map `Record\x7bstring, Step\x7d` of TourProvider.tsx. -/
abbrev TourSteps := List (String × Step)

/-- The steps registry `StepsState = Record\x7bTourKey, Record\x7bstring, Step\x7d\x7d`. -/
abbrev StepsState := List (String × TourSteps)

/-- The 'register' case of stepsReducer (TourProvider.tsx lines 96-103):
`state[tourKey] = \x7b ...tourSteps, [name]: action.step \x7d`. -/
def registerStep (state : StepsState) (step : Step) : StepsState :=
  let tourSteps := (alookup step.tourKey state).getD []
  upsert step.tourKey (upsert step.name step tourSteps) state

/-- The 'unregister' case of stepsReducer (TourProvider.tsx lines 104-111):
removes the step's key, keeping the other keys in order; a missing tour is
left untouched. -/
def unregisterStep (state : StepsState) (stepName : String) (tourKey : String) : StepsState :=
  match alookup tourKey state with
  | none => state
  | some tourSteps => upsert tourKey (tourSteps.filter (fun p => p.1 != stepName)) state

/-- The comparison used by `.sort((a, b) => a.order - b.order)`
(TourProvider.tsx line 707): ascending by `order`.  JS `Array.prototype.sort`
is a stable sort, so the model sorts with a stable insertion sort under this
relation. -/
def stepOrderLE (a b : Step) : Prop := a.order ≤ b.order

instance : DecidableRel stepOrderLE := fun a b => inferInstanceAs (Decidable (a.order ≤ b.order))

instance : IsTotal Step stepOrderLE := ⟨fun a b => Int.le_total a.order b.order⟩

instance : IsTrans Step stepOrderLE := ⟨fun _ _ _ h₁ h₂ => Int.le_trans h₁ h₂⟩

/-- orderedSteps recomputed per tour key (TourProvider.tsx lines 702-708 and
the identical inline computation in `start`, lines 815-817):
`Object.values(tourSteps).filter((s) => s.visible).sort((a, b) => a.order - b.order)`. -/
def orderedStepsOf (state : StepsState) (tourKey : String) : List Step :=
  (((alookup tourKey state).getD []).map Prod.snd).filter (fun s => s.visible)
    |>.insertionSort stepOrderLE

/-- Lifecycle events of src/types.ts (`TourEvents`).  The `stepChange`
emission passes `activeTour!`; the model keeps the unasserted
`Option String`. -/
inductive TourEvent
  | start (tourKey : String)
  | stop (tourKey : String) (completed : Bool)
  | stepChange (tourKey : Option String) (step : Step) (stepNumber : Int)
deriving DecidableEq

/-- The engine's mutable state inside TourProvider (TourProvider.tsx lines
692-700): the steps registry, `activeTour`, `currentStep`, `visible`, and
the `startTries` ref. -/
structure EngineState where
  steps : StepsState
  activeTour : Option String
  currentStep : Option Step
  visible : Bool
  startTries : Nat
deriving DecidableEq

/-- orderedSteps of the active tour (TourProvider.tsx lines 702-708):
empty when no tour is active. -/
def orderedSteps (s : EngineState) : List Step :=
  match s.activeTour with
  | none => []
  | some tk => orderedStepsOf s.steps tk

/-- JS `Array.prototype.findIndex`: index of the first element satisfying
the predicate, -1 when none does. -/
def findIdxAux (p : Step → Bool) : List Step → Option Nat
  | [] => none
  | x :: xs => if p x then some 0 else (findIdxAux p xs).map (· + 1)

/-- JS findIndex packaged with its -1 convention. -/
def jsFindIndex (p : Step → Bool) (l : List Step) : Int :=
  match findIdxAux p l with
  | some i => (i : Int)
  | none => -1

/-- stepIndex (TourProvider.tsx lines 710-716):
`currentStep ? orderedSteps.findIndex((s) => s.order === currentStep.order) : -1`.
Only the `order` field is compared. -/
def stepIndex (s : EngineState) : Int :=
  match s.currentStep with
  | none => -1
  | some c => jsFindIndex (fun st => st.order == c.order) (orderedSteps s)

/-- currentStepNumber (TourProvider.tsx line 717): `stepIndex + 1`. -/
def currentStepNumber (s : EngineState) : Int := stepIndex s + 1

/-- isFirstStep (TourProvider.tsx line 719): `stepIndex === 0`. -/
def isFirstStep (s : EngineState) : Bool := stepIndex s == 0

/-- isLastStep (TourProvider.tsx line 720):
`stepIndex === orderedSteps.length - 1`. -/
def isLastStep (s : EngineState) : Bool :=
  stepIndex s == ((orderedSteps s).length : Int) - 1

/-- JS array indexing `l[i]`: undefined for a negative or out-of-range
index. -/
def jsIndex {α : Type} (l : List α) (i : Int) : Option α :=
  if i < 0 then none else l[i.toNat]?

/-- stop (TourProvider.tsx lines 851-861): captures `activeTour` and
`completed = isLastStep` from the pre-state, flips `visible` false, clears
`activeTour` and `currentStep`, and emits `stop\x7btourKey, completed\x7d` only
when a tour was active. -/
def stop (s : EngineState) : EngineState × List TourEvent :=
  ({ s with visible := false, activeTour := none, currentStep := none },
   match s.activeTour with
   | some tk => [TourEvent.stop tk (isLastStep s)]
   | none => [])

/-- goToNext (TourProvider.tsx lines 863-875): looks up
`orderedSteps[stepIndex + 1]`; when present, emits
`stepChange\x7bactiveTour!, nextStep, stepIndex + 2\x7d` and makes it current,
otherwise calls `stop()`. -/
def goToNext (s : EngineState) : EngineState × List TourEvent :=
  match jsIndex (orderedSteps s) (stepIndex s + 1) with
  | some next =>
      ({ s with currentStep := some next },
       [TourEvent.stepChange s.activeTour next (stepIndex s + 2)])
  | none => stop s

/-- goToPrev (TourProvider.tsx lines 877-887): looks up
`orderedSteps[stepIndex - 1]`; when present, emits
`stepChange\x7bactiveTour!, prevStep, stepIndex\x7d` and makes it current,
otherwise does nothing. -/
def goToPrev (s : EngineState) : EngineState × List TourEvent :=
  match jsIndex (orderedSteps s) (stepIndex s - 1) with
  | some prev =>
      ({ s with currentStep := some prev },
       [TourEvent.stepChange s.activeTour prev (stepIndex s)])
  | none => (s, [])

/-- MAX_START_TRIES (TourProvider.tsx line 69). -/
def MAX_START_TRIES : Nat := 120

/-- The step `start` resolves first (TourProvider.tsx line 819):
`fromStep ? tourSteps[fromStep] : orderedTourSteps[0]`. -/
def firstStepOf (state : StepsState) (tourKey : String) (fromStep : Option String) : Option Step :=
  let tourSteps := (alookup tourKey state).getD []
  match fromStep with
  | some n => alookup n tourSteps
  | none => (orderedStepsOf state tourKey).head?

/-- What a whole run of `start` produced: the final engine state, the
emitted events, how many times `start` executed (the caller's invocation
plus every retry deferred to the next animation frame), and whether the
`console.warn` abort fired. -/
structure StartResult where
  state : EngineState
  events : List TourEvent
  calls : Nat
  warned : Bool
deriving DecidableEq

/-- start (TourProvider.tsx lines 806-849) run to completion against a fixed
registry (the retry is `requestAnimationFrame(() => start(...))`, so a run
in which no step ever mounts sees the same registry at every attempt):
if `startTries > MAX_START_TRIES` it resets the counter, warns and aborts;
if no first step resolves it increments the counter and retries; otherwise
it sets `activeTour`, emits `start\x7btourKey\x7d`, makes the step current (via
`setCurrentStep`/`moveModalToStep`), flips `visible` true and resets the
counter. -/
def startRun (s : EngineState) (tourKey : String) (fromStep : Option String) : StartResult :=
  if _h : s.startTries > MAX_START_TRIES then
    { state := { s with startTries := 0 }, events := [], calls := 1, warned := true }
  else
    match firstStepOf s.steps tourKey fromStep with
    | none =>
        let r := startRun { s with startTries := s.startTries + 1 } tourKey fromStep
        { state := r.state, events := r.events, calls := r.calls + 1, warned := r.warned }
    | some st =>
        { state := { s with activeTour := some tourKey, currentStep := some st,
                            visible := true, startTries := 0 },
          events := [TourEvent.start tourKey], calls := 1, warned := false }
termination_by MAX_START_TRIES + 1 - s.startTries
decreasing_by unfold MAX_START_TRIES at *; omega

/-! Placement engine: the geometry of `_animateMove`
(TourProvider.tsx lines 443-544) and of `generatePath`
(TourProvider.tsx lines 189-228). -/

/-- STEP_NUMBER_RADIUS (TourProvider.tsx line 63). -/
def STEP_NUMBER_RADIUS : ℚ := 14

/-- STEP_NUMBER_DIAMETER (TourProvider.tsx line 64). -/
def STEP_NUMBER_DIAMETER : ℚ := STEP_NUMBER_RADIUS * 2

/-- DEFAULT_MARGIN (TourProvider.tsx line 66). -/
def DEFAULT_MARGIN : ℚ := 13

/-- DEFAULT_ARROW_SIZE (TourProvider.tsx line 68). -/
def DEFAULT_ARROW_SIZE : ℚ := 6

/-- DEFAULT_HIGHLIGHT_PADDING (TourProvider.tsx line 67). -/
def DEFAULT_HIGHLIGHT_PADDING : ℚ := 4

/-- The target rectangle's center x, `rect.x + rect.width / 2`
(TourProvider.tsx line 467). -/
def centerX (rect : LayoutRect) : ℚ := rect.x + rect.width / 2

/-- The target rectangle's center y, `rect.y + rect.height / 2`
(TourProvider.tsx line 468). -/
def centerY (rect : LayoutRect) : ℚ := rect.y + rect.height / 2

/-- Vertical side of the tooltip (TourProvider.tsx lines 470-476):
`relativeToBottom = Math.abs(center.y - layout.height)`,
`relativeToTop = center.y`, and
`verticalPosition = relativeToBottom > relativeToTop ? 'bottom' : 'top'`. -/
inductive VerticalPosition
  | top
  | bottom
deriving DecidableEq

/-- Horizontal anchor of the tooltip (TourProvider.tsx lines 472-478). -/
inductive HorizontalPosition
  | left
  | right
deriving DecidableEq

/-- The tooltip/arrow/badge box that `_animateMove` computes.  Fields that
are only set on one branch of the vertical or horizontal decision are
optional, exactly as the corresponding `ViewStyle` keys are only assigned on
that branch. -/
structure TooltipPlacement where
  verticalPosition : VerticalPosition
  horizontalPosition : HorizontalPosition
  stepNumberLeft : ℚ
  tooltipTop : Option ℚ
  tooltipBottom : Option ℚ
  tooltipLeft : Option ℚ
  tooltipRight : Option ℚ
  maxWidth : ℚ
  arrowTop : Option ℚ
  arrowBottom : Option ℚ
  arrowLeft : Option ℚ
  arrowRight : Option ℚ
deriving DecidableEq

/-- The pure geometry of `_animateMove` (TourProvider.tsx lines 443-544),
with the Android status-bar shift and the animation plumbing stripped:
`rect` is the (already padded) target rectangle and `layout` the measured
viewport.  Each field is written as an `if` on the very condition the
source branches on, so the per-branch `ViewStyle` assignments of lines
483-514 appear here field by field. -/
def animateMovePlacement (rect layout : LayoutRect) (margin arrowSize : ℚ) :
    TooltipPlacement :=
  let stepNumberLeft₀ := rect.x - STEP_NUMBER_RADIUS
  let stepNumberLeft :=
    if stepNumberLeft₀ < 0 then
      let s := rect.x + rect.width - STEP_NUMBER_RADIUS
      if s > layout.width - STEP_NUMBER_DIAMETER then layout.width - STEP_NUMBER_DIAMETER
      else s
    else stepNumberLeft₀
  let relativeToBottom := |centerY rect - layout.height|
  let relativeToTop := centerY rect
  let relativeToLeft := centerX rect
  let relativeToRight := |centerX rect - layout.width|
  let tooltipRightVal :=
    let r₀ := max (layout.width - (rect.x + rect.width)) 0
    if r₀ = 0 then margin else r₀
  let tooltipLeftVal :=
    let l₀ := max rect.x 0
    if l₀ = 0 then margin else l₀
  { verticalPosition :=
      if relativeToBottom > relativeToTop then VerticalPosition.bottom
      else VerticalPosition.top
    horizontalPosition :=
      if relativeToLeft > relativeToRight then HorizontalPosition.left
      else HorizontalPosition.right
    stepNumberLeft := stepNumberLeft
    tooltipTop :=
      if relativeToBottom > relativeToTop then some (rect.y + rect.height + margin)
      else none
    tooltipBottom :=
      if relativeToBottom > relativeToTop then none
      else some (layout.height - (rect.y - margin))
    tooltipLeft :=
      if relativeToLeft > relativeToRight then none else some tooltipLeftVal
    tooltipRight :=
      if relativeToLeft > relativeToRight then some tooltipRightVal else none
    maxWidth :=
      if relativeToLeft > relativeToRight then layout.width - tooltipRightVal - margin
      else layout.width - tooltipLeftVal - margin
    arrowTop :=
      if relativeToBottom > relativeToTop then
        some (rect.y + rect.height + margin - arrowSize * 2)
      else none
    arrowBottom :=
      if relativeToBottom > relativeToTop then none
      else some (layout.height - (rect.y - margin) - arrowSize * 2)
    arrowLeft :=
      if relativeToLeft > relativeToRight then none else some (tooltipLeftVal + margin)
    arrowRight :=
      if relativeToLeft > relativeToRight then some (tooltipRightVal + margin) else none }

/-- The inner (cutout) path of the SVG mask, represented structurally: the
parameters `generatePath` (TourProvider.tsx lines 199-228) interpolates into
the path string for each shape. -/
inductive InnerPath
  | circle (cx cy radius : ℚ)
  | rect (x y width height : ℚ)
  | roundedRect (x y width height radius : ℚ)
deriving DecidableEq

/-- The shape cases of `generatePath` (TourProvider.tsx lines 204-226):
circle uses `diameter = Math.min(sizeX, sizeY)` centered on the target;
rectangle is the exact box; rounded-rectangle clamps the corner radius to
`Math.min(borderRadius, sizeX / 2, sizeY / 2)`. -/
def generatePathInner (maskShape : MaskShape) (posX posY sizeX sizeY borderRadius : ℚ) :
    InnerPath :=
  match maskShape with
  | MaskShape.circle =>
      let diameter := min sizeX sizeY
      let radius := diameter / 2
      InnerPath.circle (posX + sizeX / 2) (posY + sizeY / 2) radius
  | MaskShape.rectangle => InnerPath.rect posX posY sizeX sizeY
  | MaskShape.roundedRectangle =>
      InnerPath.roundedRect posX posY sizeX sizeY
        (min borderRadius (min (sizeX / 2) (sizeY / 2)))

/-- The rectangle moveModalToStep (TourProvider.tsx lines 732-753) feeds to
`animateMove` for a measured step:
`padding = step.highlightPadding ?? highlightPadding`, then
`\x7bwidth: m.width + padding, height: m.height + padding,
x: m.x - padding / 2, y: m.y - padding / 2 + verticalOffset\x7d`. -/
def moveModalRect (measurement : LayoutRect) (stepHighlightPadding : Option ℚ)
    (providerHighlightPadding verticalOffset : ℚ) : LayoutRect :=
  let padding := stepHighlightPadding.getD providerHighlightPadding
  { width := measurement.width + padding
    height := measurement.height + padding
    x := measurement.x - padding / 2
    y := measurement.y - padding / 2 + verticalOffset }

/-- TourEventEmitter.emit (src/eventEmitter.ts lines 186-197):
`callbacks.forEach((callback) => \x7b try \x7b callback(data) \x7d catch (error)
\x7b console.error(...) \x7d \x7d)`.  A listener is modelled as an identifier
together with a behaviour that either returns or throws; the run records, in
iteration order, every invocation (which listener, with which data) and the
error log of the catch branches. -/
def emitAll {α : Type} (callbacks : List (Nat × (α → Except String Unit))) (d : α) :
    List (Nat × α) × List String :=
  match callbacks with
  | [] => ([], [])
  | (i, cb) :: rest =>
      let tail := emitAll rest d
      match cb d with
      | Except.ok _ => ((i, d) :: tail.1, tail.2)
      | Except.error e => ((i, d) :: tail.1, e :: tail.2)

/-! Concrete scenario states used by counterexamples and witnesses. -/

/-- A visible step of tour "B". -/
def stepB1 : Step :=
  { name := "b1", order := 1, text := "", tourKey := "B", visible := true,
    maskShape := none, borderRadius := none, highlightPadding := none }

/-- A state in which tour "A" is active while tour "B" has a registered
visible step. -/
def c2State : EngineState :=
  { steps := registerStep [] stepB1, activeTour := some "A", currentStep := none,
    visible := true, startTries := 0 }

/-- The idle state with an empty step registry. -/
def c3State : EngineState :=
  { steps := [], activeTour := none, currentStep := none, visible := false,
    startTries := 0 }

/-- First of two steps of tour "t", order 1. -/
def stepT1 : Step :=
  { name := "s1", order := 1, text := "", tourKey := "t", visible := true,
    maskShape := none, borderRadius := none, highlightPadding := none }

/-- Second of two steps of tour "t", order 2. -/
def stepT2 : Step :=
  { name := "s2", order := 2, text := "", tourKey := "t", visible := true,
    maskShape := none, borderRadius := none, highlightPadding := none }

/-- Tour "t" active with both steps registered and the last step current. -/
def c4State : EngineState :=
  { steps := registerStep (registerStep [] stepT1) stepT2,
    activeTour := some "t", currentStep := some stepT2,
    visible := true, startTries := 0 }

/-- A visible step of tour "t" with order 1, registered first. -/
def stepDupA : Step :=
  { name := "a", order := 1, text := "", tourKey := "t", visible := true,
    maskShape := none, borderRadius := none, highlightPadding := none }

/-- A distinct visible step of tour "t" with the same order 1, registered
second. -/
def stepDupB : Step :=
  { name := "b", order := 1, text := "", tourKey := "t", visible := true,
    maskShape := none, borderRadius := none, highlightPadding := none }

/-- Tour "t" active with two steps sharing order 1, the later one current. -/
def dupState : EngineState :=
  { steps := registerStep (registerStep [] stepDupA) stepDupB,
    activeTour := some "t", currentStep := some stepDupB,
    visible := true, startTries := 0 }

/-! Helper lemmas about the registry's association-list operations. -/

theorem alookup_upsert {β : Type} (k : String) (v : β) (l : List (String × β)) :
    alookup k (upsert k v l) = some v := by
  induction l with
  | nil => simp [upsert, alookup]
  | cons hd tl ih =>
      obtain ⟨k₂, v₂⟩ := hd
      by_cases h : k₂ = k
      · simp [upsert, h, alookup]
      · simp [upsert, h, alookup, ih]

theorem upsert_upsert {β : Type} (k : String) (v : β) (l : List (String × β)) :
    upsert k v (upsert k v l) = upsert k v l := by
  induction l with
  | nil => simp [upsert]
  | cons hd tl ih =>
      obtain ⟨k₂, v₂⟩ := hd
      by_cases h : k₂ = k
      · simp [upsert, h]
      · simp [upsert, h, ih]

theorem registerStep_idem (state : StepsState) (st : Step) :
    registerStep (registerStep state st) st = registerStep state st := by
  unfold registerStep
  rw [alookup_upsert]
  simp only [Option.getD_some]
  rw [upsert_upsert, upsert_upsert]

/-- C7: registering the same step twice with identical data yields the very
same registry state (hence the same ordered list), and `orderedStepsOf` is
exactly the visible steps of the tour sorted ascending (and stably) by
`order`: it is a permutation of the visible subset of the tour's registered
steps and is pairwise ordered. -/
theorem c7_orderedSteps_idempotent_sorted (state : StepsState) (st : Step) (tourKey : String) :
    orderedStepsOf (registerStep (registerStep state st) st) tourKey
        = orderedStepsOf (registerStep state st) tourKey
    ∧ (orderedStepsOf state tourKey).Pairwise (fun a b => a.order ≤ b.order)
    ∧ List.Perm (orderedStepsOf state tourKey)
        ((((alookup tourKey state).getD []).map Prod.snd).filter (fun s => s.visible)) := by
  refine ⟨by rw [registerStep_idem], ?_, ?_⟩
  · exact List.sorted_insertionSort stepOrderLE _
  · exact List.perm_insertionSort stepOrderLE _

/-- C6: for every requested radius and target size, the rounded-rectangle
branch of `generatePath` draws its corners with radius
`min(borderRadius, sizeX/2, sizeY/2)`, which never exceeds
`min(sizeX, sizeY)/2`. -/
theorem c6_roundedRect_radius_clamped (posX posY sizeX sizeY borderRadius : ℚ) :
    ∃ r, generatePathInner MaskShape.roundedRectangle posX posY sizeX sizeY borderRadius
          = InnerPath.roundedRect posX posY sizeX sizeY r
      ∧ r = min borderRadius (min (sizeX / 2) (sizeY / 2))
      ∧ r ≤ min sizeX sizeY / 2 := by
  refine ⟨_, rfl, rfl, ?_⟩
  have h2 : min (sizeX / 2) (sizeY / 2) = min sizeX sizeY / 2 := by
    rcases le_total sizeX sizeY with h | h
    · rw [min_eq_left (by linarith), min_eq_left h]
    · rw [min_eq_right (by linarith), min_eq_right h]
  calc min borderRadius (min (sizeX / 2) (sizeY / 2))
      ≤ min (sizeX / 2) (sizeY / 2) := min_le_right _ _
    _ = min sizeX sizeY / 2 := h2

/-- C8: an emission delivers the event to every subscribed listener in
order, with the same event data, whether or not earlier listeners throw;
each thrown error is caught and appended to the log instead of propagating. -/
theorem c8_emit_isolates_listener_errors {α : Type}
    (callbacks : List (Nat × (α → Except String Unit))) (d : α) :
    (emitAll callbacks d).1 = callbacks.map (fun p => (p.1, d))
    ∧ (emitAll callbacks d).2
        = callbacks.filterMap (fun p =>
            match p.2 d with
            | Except.ok _ => none
            | Except.error e => some e) := by
  induction callbacks with
  | nil => exact ⟨rfl, rfl⟩
  | cons hd tl ih =>
      obtain ⟨i, cb⟩ := hd
      rcases hcb : cb d with u | e <;>
        simp [emitAll, hcb, ih.1, ih.2, List.filterMap_cons]

/-- C9: the rectangle moveModalToStep feeds to the mask and tooltip
placement grows by exactly the highlight padding (the step's override when
defined, else the provider default) in each dimension, with `x` and `y`
shifted back by half that padding, i.e. the inflation is padding/2 per
side; `y` is further shifted by the engine-wide vertical offset. -/
theorem c9_highlight_inflation (m : LayoutRect) (sp : Option ℚ) (pp vo : ℚ) :
    (moveModalRect m sp pp vo).width = m.width + sp.getD pp
    ∧ (moveModalRect m sp pp vo).height = m.height + sp.getD pp
    ∧ (moveModalRect m sp pp vo).x = m.x - sp.getD pp / 2
    ∧ (moveModalRect m sp pp vo).y = m.y - sp.getD pp / 2 + vo
    ∧ m.x - (moveModalRect m sp pp vo).x = sp.getD pp / 2
    ∧ ((moveModalRect m sp pp vo).x + (moveModalRect m sp pp vo).width)
        - (m.x + m.width) = sp.getD pp / 2
    ∧ m.y - ((moveModalRect m sp pp vo).y - vo) = sp.getD pp / 2
    ∧ (((moveModalRect m sp pp vo).y - vo) + (moveModalRect m sp pp vo).height)
        - (m.y + m.height) = sp.getD pp / 2 := by
  unfold moveModalRect
  exact ⟨rfl, rfl, rfl, rfl, by ring, by ring, by ring, by ring⟩

/-- The near-top-left quadrant target of the spec's scenario,
`target = (20,20,60,60)`. -/
def quadrantTarget : LayoutRect := { x := 20, y := 20, width := 60, height := 60 }

/-- The spec's scenario viewport, `viewport = (0,0,400,800)`. -/
def quadrantViewport : LayoutRect := { x := 0, y := 0, width := 400, height := 800 }

/-- Characterisation of the vertical-side decision of `_animateMove`
(TourProvider.tsx lines 470-476): `bottom` exactly when
`relativeToBottom > relativeToTop`. -/
theorem animateMove_verticalPosition (rect layout : LayoutRect) (margin arrowSize : ℚ) :
    (animateMovePlacement rect layout margin arrowSize).verticalPosition
      = if centerY rect < |centerY rect - layout.height| then VerticalPosition.bottom
        else VerticalPosition.top := by
  by_cases h : centerY rect < |centerY rect - layout.height|
  · simp [animateMovePlacement, h]
  · simp [animateMovePlacement, h]

/-- C1 counterexample: for `viewport = (0,0,400,800)` and
`target = (20,20,60,60)` the target's center (20,50 from the top) is NOT
closer to the bottom edge (distance 750) than to the top edge (distance
50), yet `_animateMove` chooses vertical side `bottom` — so the rule
"bottom if the center is closer to the bottom edge, else top" predicts
`top` and is refuted by the code (whose own quadrant behaviour the spec's
scenario lists correctly). -/
theorem c1_counterexample :
    (animateMovePlacement quadrantTarget quadrantViewport DEFAULT_MARGIN
        DEFAULT_ARROW_SIZE).verticalPosition = VerticalPosition.bottom
    ∧ ¬ (|centerY quadrantTarget - quadrantViewport.height| < centerY quadrantTarget) := by
  constructor
  · rw [animateMove_verticalPosition]
    norm_num [centerY, quadrantTarget, quadrantViewport]
  · norm_num [centerY, quadrantTarget, quadrantViewport]

/-- C1 (amended): `_animateMove` chooses vertical side `bottom` exactly when
the distance from the target's center to the viewport's bottom edge is
strictly GREATER than its distance to the top edge (that is, when the
center is closer to the top, leaving more room below); otherwise — in
particular when the two distances are equal — it chooses `top`. -/
theorem c1_vertical_side (rect layout : LayoutRect) (margin arrowSize : ℚ) :
    ((animateMovePlacement rect layout margin arrowSize).verticalPosition
        = VerticalPosition.bottom
      ↔ centerY rect < |centerY rect - layout.height|)
    ∧ (|centerY rect - layout.height| = centerY rect →
        (animateMovePlacement rect layout margin arrowSize).verticalPosition
          = VerticalPosition.top) := by
  constructor
  · by_cases h : centerY rect < |centerY rect - layout.height|
    · simp [animateMovePlacement, h]
    · simp [animateMovePlacement, h]
  · intro he
    have h : ¬ (centerY rect < |centerY rect - layout.height|) := by
      rw [he]; exact lt_irrefl _
    simp [animateMovePlacement, h]

/-- C1 witness for the tie-break hypothesis: a target whose center sits at
exactly half the viewport height is placed with vertical side `top`. -/
theorem c1_witness :
    (animateMovePlacement { x := 0, y := 390, width := 20, height := 20 }
        { x := 0, y := 0, width := 400, height := 800 } DEFAULT_MARGIN
        DEFAULT_ARROW_SIZE).verticalPosition = VerticalPosition.top :=
  (c1_vertical_side { x := 0, y := 390, width := 20, height := 20 }
      { x := 0, y := 0, width := 400, height := 800 } DEFAULT_MARGIN
      DEFAULT_ARROW_SIZE).2 (by norm_num [centerY])

/-- C5: whenever the target rectangle lies horizontally within the viewport
and the margin is smaller than half the viewport width (as
the default margin of 13 is for any real screen), the tooltip's computed
`maxWidth` — viewport width minus the chosen horizontal anchor offset minus
margin — is strictly positive. -/
theorem c5_maxWidth_pos (rect layout : LayoutRect) (margin arrowSize : ℚ)
    (hx : 0 ≤ rect.x) (hw : 0 ≤ rect.width)
    (hxw : rect.x + rect.width ≤ layout.width)
    (hm2 : 2 * margin < layout.width) :
    0 < (animateMovePlacement rect layout margin arrowSize).maxWidth := by
  have habs : |centerX rect - layout.width| = layout.width - centerX rect := by
    rw [abs_of_nonpos (by unfold centerX; linarith)]; ring
  have hr : max (layout.width - (rect.x + rect.width)) 0
      = layout.width - (rect.x + rect.width) := max_eq_left (by linarith)
  have hl : max rect.x 0 = rect.x := max_eq_left hx
  simp only [animateMovePlacement, habs, hr, hl]
  unfold centerX
  split_ifs with h₁ h₂ h₂ <;> linarith

/-- C5 witness: the spec's quadrant scenario instance — target
`(20,20,60,60)` inside viewport `(0,0,400,800)` with the default margin —
has a strictly positive tooltip maxWidth. -/
theorem c5_witness :
    0 < (animateMovePlacement quadrantTarget quadrantViewport DEFAULT_MARGIN
        DEFAULT_ARROW_SIZE).maxWidth :=
  c5_maxWidth_pos quadrantTarget quadrantViewport DEFAULT_MARGIN DEFAULT_ARROW_SIZE
    (by norm_num [quadrantTarget]) (by norm_num [quadrantTarget])
    (by norm_num [quadrantTarget, quadrantViewport])
    (by norm_num [DEFAULT_MARGIN, quadrantViewport])

/-! Helper lemmas about a whole run of `start`. -/

/-- When the retry counter is within the cap and a first step resolves,
`start` activates the tour at once: one invocation, a single `start` event,
no warning. -/
theorem startRun_found (s : EngineState) (tourKey : String) (fromStep : Option String)
    (st : Step) (h : ¬ s.startTries > MAX_START_TRIES)
    (hst : firstStepOf s.steps tourKey fromStep = some st) :
    startRun s tourKey fromStep =
      { state := { s with activeTour := some tourKey, currentStep := some st,
                          visible := true, startTries := 0 },
        events := [TourEvent.start tourKey], calls := 1, warned := false } := by
  unfold startRun
  rw [dif_neg h, hst]

/-- When no first step ever resolves, running `start` from a counter that is
`g` below the abort threshold executes `g + 1` times in total, warns, emits
nothing, and only resets the counter. -/
theorem startRun_noStep (g : Nat) : ∀ (s : EngineState) (tourKey : String)
    (fromStep : Option String),
    firstStepOf s.steps tourKey fromStep = none →
    s.startTries + g = MAX_START_TRIES + 1 →
    startRun s tourKey fromStep =
      { state := { s with startTries := 0 }, events := [], calls := g + 1,
        warned := true } := by
  induction g with
  | zero =>
      intro s tk fs hnone htries
      have h : s.startTries > MAX_START_TRIES := by omega
      unfold startRun
      rw [dif_pos h]
  | succ n ih =>
      intro s tk fs hnone htries
      have h : ¬ s.startTries > MAX_START_TRIES := by omega
      have htries₂ : ({ s with startTries := s.startTries + 1 } : EngineState).startTries + n
          = MAX_START_TRIES + 1 := by
        show s.startTries + 1 + n = MAX_START_TRIES + 1
        omega
      unfold startRun
      rw [dif_neg h, hnone]
      rw [ih { s with startTries := s.startTries + 1 } tk fs hnone htries₂]

/-- C2 counterexample: with tour "A" active and a visible step registered
for tour "B", `start("B")` is NOT a no-op — it leaves `activeTour = "B"`
(silently swapping tours) and emits a `start` event for "B". -/
theorem c2_counterexample :
    c2State.activeTour = some "A"
    ∧ (startRun c2State "B" none).state.activeTour = some "B"
    ∧ (startRun c2State "B" none).events = [TourEvent.start "B"] := by
  have key := startRun_found c2State "B" none stepB1 (by decide) rfl
  refine ⟨rfl, ?_, ?_⟩ <;> rw [key]

/-- C2 (amended): starting a tour whose key has a resolvable first step —
whatever tour is currently active — does not stop the previous tour (no
`stop` event is emitted) but silently swaps `activeTour` to the new key and
emits `start` for it. -/
theorem c2_start_swaps_active_tour (s : EngineState) (tk : String) (st : Step)
    (htries : s.startTries ≤ MAX_START_TRIES)
    (hst : firstStepOf s.steps tk none = some st) :
    (startRun s tk none).state.activeTour = some tk
    ∧ (startRun s tk none).state.currentStep = some st
    ∧ (startRun s tk none).events = [TourEvent.start tk]
    ∧ ∀ tk₂ c, TourEvent.stop tk₂ c ∉ (startRun s tk none).events := by
  have key := startRun_found s tk none st (by omega) hst
  rw [key]
  refine ⟨rfl, rfl, rfl, ?_⟩
  intro tk₂ c hmem
  simp at hmem

/-- C2 witness: the amended behaviour at the concrete double-start state. -/
theorem c2_witness :
    (startRun c2State "B" none).state.activeTour = some "B"
    ∧ (startRun c2State "B" none).state.currentStep = some stepB1
    ∧ (startRun c2State "B" none).events = [TourEvent.start "B"]
    ∧ ∀ tk₂ c, TourEvent.stop tk₂ c ∉ (startRun c2State "B" none).events :=
  c2_start_swaps_active_tour c2State "B" stepB1 (by decide) rfl

/-- C3 counterexample: starting a tour with no registered steps performs
121 deferred retry attempts before aborting — one more than the stated cap
of 120 (`startTries` must strictly exceed `MAX_START_TRIES` for the abort
to fire, and it is incremented up to 121 first). -/
theorem c3_counterexample :
    (startRun c3State "missing" none).calls - 1 = 121
    ∧ ¬ ((121 : Nat) ≤ MAX_START_TRIES) := by
  have key := startRun_noStep (MAX_START_TRIES + 1) c3State "missing" none rfl
    (by simp [c3State])
  rw [key]
  exact ⟨by norm_num [MAX_START_TRIES], by norm_num [MAX_START_TRIES]⟩

/-- C3 (amended): for a tour key with no registered visible steps, `start`
retries 121 times (each retry deferred to the next animation frame; the
counter may reach 121 before the strict `> 120` abort check fires on the
following invocation), then aborts with a warning, leaves `activeTour`
equal to none, and never emits a `start` event. -/
theorem c3_start_bounded_retry (s : EngineState) (tk : String)
    (hempty : orderedStepsOf s.steps tk = [])
    (htries : s.startTries = 0) (hat : s.activeTour = none) :
    (startRun s tk none).state.activeTour = none
    ∧ (startRun s tk none).events = []
    ∧ (startRun s tk none).warned = true
    ∧ (startRun s tk none).calls = MAX_START_TRIES + 2 := by
  have hnone : firstStepOf s.steps tk none = none := by
    unfold firstStepOf
    rw [hempty]
    rfl
  have key := startRun_noStep (MAX_START_TRIES + 1) s tk none hnone (by omega)
  rw [key]
  exact ⟨hat, rfl, rfl, rfl⟩

/-- C3 witness: the amended behaviour from the idle state with an empty
registry. -/
theorem c3_witness :
    (startRun c3State "missing" none).state.activeTour = none
    ∧ (startRun c3State "missing" none).events = []
    ∧ (startRun c3State "missing" none).warned = true
    ∧ (startRun c3State "missing" none).calls = MAX_START_TRIES + 2 :=
  c3_start_bounded_retry c3State "missing" rfl rfl rfl

/-! Helper lemmas about `findIndex` and the step index. -/

/-- JS `findIndex` on a list ending in the one matching element finds it at
the last position. -/
theorem findIdxAux_concat_first (p : Step → Bool) (xs : List Step) (c : Step)
    (hxs : ∀ x ∈ xs, p x = false) (hc : p c = true) :
    findIdxAux p (xs ++ [c]) = some xs.length := by
  induction xs with
  | nil => simp [findIdxAux, hc]
  | cons hd tl ih =>
      have hhd : p hd = false := hxs hd (by simp)
      simp [findIdxAux, hhd, ih (fun x hx => hxs x (by simp [hx]))]

/-- C4 counterexample: with two distinct visible steps of the active tour
sharing order 1 and the later of them current, the current step IS the last
step of the ordered list, yet `goToNext` does not behave like `stop`: it
emits a `stepChange` event (back to the same step) and no `stop` event. -/
theorem c4_counterexample :
    dupState.currentStep = some stepDupB
    ∧ (orderedSteps dupState).getLast? = some stepDupB
    ∧ (goToNext dupState).2 = [TourEvent.stepChange (some "t") stepDupB 2]
    ∧ goToNext dupState ≠ stop dupState := by
  refine ⟨rfl, by decide, by decide, by decide⟩

/-- C4 (amended): when the current step is the last step of the ordered
visible step list AND no earlier step of that list shares its order value
(so that the order-based index lookup finds the last position), `goToNext`
behaves identically to `stop`, the emitted event is `stop` with
`completed = true`, and no `stepChange` event is emitted. -/
theorem c4_goToNext_on_last_stops (s : EngineState) (tk : String) (c : Step)
    (hat : s.activeTour = some tk)
    (hcs : s.currentStep = some c)
    (hlast : (orderedSteps s).getLast? = some c)
    (hdup : ∀ st ∈ (orderedSteps s).dropLast, st.order ≠ c.order) :
    goToNext s = stop s ∧ (goToNext s).2 = [TourEvent.stop tk true] := by
  obtain ⟨ys, hys⟩ := List.getLast?_eq_some_iff.mp hlast
  have hys₂ : ∀ x ∈ ys, (x.order == c.order) = false := by
    intro x hx
    have hne : x.order ≠ c.order := by
      refine hdup x ?_
      rw [hys, List.dropLast_concat]
      exact hx
    simpa using hne
  have hidx : stepIndex s = (ys.length : Int) := by
    unfold stepIndex jsFindIndex
    simp only [hcs, hys, findIdxAux_concat_first _ ys c hys₂ (by simp)]
  have hlen : (orderedSteps s).length = ys.length + 1 := by
    rw [hys]; simp
  have hnext : jsIndex (orderedSteps s) (stepIndex s + 1) = none := by
    unfold jsIndex
    rw [hidx, if_neg (by omega)]
    refine List.getElem?_eq_none ?_
    rw [hlen]
    omega
  have hstop : goToNext s = stop s := by
    unfold goToNext
    rw [hnext]
  have hcompleted : isLastStep s = true := by
    unfold isLastStep
    rw [hidx, hlen]
    simp only [beq_iff_eq]
    omega
  refine ⟨hstop, ?_⟩
  rw [hstop]
  unfold stop
  rw [hat]
  simp [hcompleted]

/-- C4 witness: with steps of orders 1 and 2 registered for the active tour
and the order-2 step current, goToNext equals stop and reports completion. -/
theorem c4_witness :
    goToNext c4State = stop c4State
    ∧ (goToNext c4State).2 = [TourEvent.stop "t" true] :=
  c4_goToNext_on_last_stops c4State "t" stepT2 rfl rfl (by decide) (by decide)

/-- C10: the index of the current step is found by comparing `order` fields
only, so two current steps with equal `order` — however their names differ —
yield the same step index, the same reported `currentStepNumber`,
`isFirstStep` and `isLastStep`, and the same navigation behaviour (the same
`goToNext` resulting current step and emitted events, and the same
`goToPrev` emitted events): each is treated as the first step of its
order-equal group. -/
theorem c10_stepIndex_by_order_only (s : EngineState) (a b : Step)
    (h : a.order = b.order) :
    stepIndex { s with currentStep := some a }
        = stepIndex { s with currentStep := some b }
    ∧ currentStepNumber { s with currentStep := some a }
        = currentStepNumber { s with currentStep := some b }
    ∧ isFirstStep { s with currentStep := some a }
        = isFirstStep { s with currentStep := some b }
    ∧ isLastStep { s with currentStep := some a }
        = isLastStep { s with currentStep := some b }
    ∧ (goToNext { s with currentStep := some a }).1.currentStep
        = (goToNext { s with currentStep := some b }).1.currentStep
    ∧ (goToNext { s with currentStep := some a }).2
        = (goToNext { s with currentStep := some b }).2
    ∧ (goToPrev { s with currentStep := some a }).2
        = (goToPrev { s with currentStep := some b }).2 := by
  have hidx : stepIndex { s with currentStep := some a }
      = stepIndex { s with currentStep := some b } := by
    unfold stepIndex
    simp only [h]
    rfl
  have hord : orderedSteps { s with currentStep := some a }
      = orderedSteps { s with currentStep := some b } := rfl
  have hLast : isLastStep { s with currentStep := some a }
      = isLastStep { s with currentStep := some b } := by
    unfold isLastStep; rw [hidx, hord]
  refine ⟨hidx, ?_, ?_, hLast, ?_, ?_, ?_⟩
  · unfold currentStepNumber; rw [hidx]
  · unfold isFirstStep; rw [hidx]
  · unfold goToNext
    rw [hidx, hord]
    cases hj : jsIndex (orderedSteps { s with currentStep := some b })
        (stepIndex { s with currentStep := some b } + 1) with
    | none => simp [stop]
    | some next => rfl
  · unfold goToNext
    rw [hidx, hord]
    cases hj : jsIndex (orderedSteps { s with currentStep := some b })
        (stepIndex { s with currentStep := some b } + 1) with
    | none => simp [stop, hLast]
    | some next => simp
  · unfold goToPrev
    rw [hidx, hord]
    cases hj : jsIndex (orderedSteps { s with currentStep := some b })
        (stepIndex { s with currentStep := some b } - 1) with
    | none => rfl
    | some prev => simp

/-- C10 witness: the two order-1 steps of the duplicate-order scenario are
treated identically by the index, the reported step numbers and flags, and
by goToNext/goToPrev. -/
theorem c10_witness :
    stepIndex { dupState with currentStep := some stepDupA }
        = stepIndex { dupState with currentStep := some stepDupB }
    ∧ currentStepNumber { dupState with currentStep := some stepDupA }
        = currentStepNumber { dupState with currentStep := some stepDupB }
    ∧ isFirstStep { dupState with currentStep := some stepDupA }
        = isFirstStep { dupState with currentStep := some stepDupB }
    ∧ isLastStep { dupState with currentStep := some stepDupA }
        = isLastStep { dupState with currentStep := some stepDupB }
    ∧ (goToNext { dupState with currentStep := some stepDupA }).1.currentStep
        = (goToNext { dupState with currentStep := some stepDupB }).1.currentStep
    ∧ (goToNext { dupState with currentStep := some stepDupA }).2
        = (goToNext { dupState with currentStep := some stepDupB }).2
    ∧ (goToPrev { dupState with currentStep := some stepDupA }).2
        = (goToPrev { dupState with currentStep := some stepDupB }).2 :=
  c10_stepIndex_by_order_only dupState stepDupA stepDupB rfl

end TourPilot
